import Mathlib

/-!
Verification of the WizMail / Gmail Quick Search extension scripts
(`content.js`, `manage.js`) against their natural-language specification.

JavaScript strings are modelled as `List Char`; JavaScript runtime values
as the inductive `JSVal`; a thrown exception as `Option.none`; the
external key-value store as an explicit parameter.  All definitions are
translated from the source files; definitions whose name starts with
`spec` restate the specification's wording for comparison.
-/

set_option maxRecDepth 100000

namespace WizMail

/-! ## String model -/

/-- Code points accepted by the JavaScript `trim` / regex `\s` whitespace
class: WhiteSpace (TAB VT FF SP NBSP ZWNBSP and the Zs category) together
with the line terminators LF CR LS PS. -/
def wsCodes : List Nat :=
  [9, 10, 11, 12, 13, 32, 0xA0, 0x1680,
   0x2000, 0x2001, 0x2002, 0x2003, 0x2004, 0x2005, 0x2006, 0x2007,
   0x2008, 0x2009, 0x200A, 0x2028, 0x2029, 0x202F, 0x205F, 0x3000, 0xFEFF]

def isJsWhitespace (c : Char) : Bool :=
  wsCodes.contains c.toNat

/-- JavaScript `String.prototype.trim`: drop whitespace from both ends. -/
def trimChars (s : List Char) : List Char :=
  ((s.dropWhile isJsWhitespace).reverse.dropWhile isJsWhitespace).reverse

/-- ASCII lower-casing, the case canonicalisation relevant to the
case-insensitive regexes and `toLowerCase` calls of the source. -/
def asciiLower (c : Char) : Char :=
  if 65 ≤ c.toNat ∧ c.toNat ≤ 90 then Char.ofNat (c.toNat + 32) else c

def lowerChars (s : List Char) : List Char :=
  s.map asciiLower

/-- The regex class `[a-zA-Z0-9]` used by `/[a-zA-Z0-9]/.test(query)`. -/
def isAsciiAlnum (c : Char) : Bool :=
  (decide (97 ≤ c.toNat) && decide (c.toNat ≤ 122)) ||
  (decide (65 ≤ c.toNat) && decide (c.toNat ≤ 90)) ||
  (decide (48 ≤ c.toNat) && decide (c.toNat ≤ 57))

/-- The regex class `\w` = `[A-Za-z0-9_]`. -/
def isWordChar (c : Char) : Bool :=
  isAsciiAlnum c || decide (c.toNat = 95)

/-- `pat` occurs as a contiguous substring of `s`
(JavaScript `String.prototype.includes` / an unanchored literal regex). -/
def containsSub (pat s : List Char) : Bool :=
  s.tails.any (fun t => pat.isPrefixOf t)

/-! ## JavaScript value model -/

/-- Untyped JavaScript runtime values, as far as the scripts inspect them:
`undefined`, `null`, booleans, numbers, strings, arrays and plain objects
(an object is its list of own enumerable properties, first binding wins). -/
inductive JSVal : Type where
  | undef : JSVal
  | null : JSVal
  | bool : Bool → JSVal
  | num : Int → JSVal
  | str : List Char → JSVal
  | arr : List JSVal → JSVal
  | obj : List (String × JSVal) → JSVal

/-- Property read `o.key` on an object's property list; an absent
property reads as `undefined`. -/
def getProp : List (String × JSVal) → String → JSVal
  | [], _ => JSVal.undef
  | (k, v) :: rest, key => if k = key then v else getProp rest key

/-- The JavaScript `key in o` test. -/
def hasProp (fs : List (String × JSVal)) (key : String) : Bool :=
  fs.any (fun p => p.1 = key)

/-! ## Constants and the built-in default collection (`content.js` 14-39,
identical in `manage.js` 8-22) -/

def MAX_SEARCHES : Nat := 50

def MAX_NAME_LENGTH : Nat := 100

def MAX_QUERY_LENGTH : Nat := 500

/-- `DEFAULT_SEARCHES`, the built-in default collection, as
(name, query) pairs. -/
def DEFAULT_SEARCHES : List (List Char × List Char) :=
  [("Unread".data, "is:unread".data),
   ("Unread Archived".data, "is:unread -in:inbox".data),
   ("Needs Reply".data, ("from:* has:nouserlabels -category:social " ++
      "-category:promotions -category:updates -category:forums " ++
      "-category:advertisements -category:reservations " ++
      "-category:purchases is:unread").data),
   ("Should Archive".data, "-has:nouserlabels in:inbox is:read -is:starred".data),
   ("Attachments".data, "has:attachment".data),
   ("Receipts".data, "category:purchases OR newer_than:1y subject:(receipt OR invoice)".data),
   ("Starred".data, "is:starred".data),
   ("Calendar".data, ("-from:(me) subject:(\"invitation\" OR \"accepted\" OR " ++
      "\"rejected\" OR \"updated\" OR \"canceled event\" OR \"declined\" OR " ++
      "\"proposed\") when where calendar who organizer -Re").data)]

/-- A `{ name: ..., q: ... }` record object. -/
def searchObj (p : List Char × List Char) : JSVal :=
  JSVal.obj [("name", JSVal.str p.1), ("q", JSVal.str p.2)]

def toJS (l : List (List Char × List Char)) : JSVal :=
  JSVal.arr (l.map searchObj)

/-- The default collection as the JavaScript value stored and returned. -/
def defaultSearchesJS : JSVal :=
  toJS DEFAULT_SEARCHES

/-! ## Validators (`content.js` 52-121) -/

/-- `validateString(value, maxLength)` (`content.js` 52-67): rejects
`undefined`/`null`, non-strings, strings empty after trimming, and
strings whose trimmed length exceeds `maxLength`. -/
def validateString (value : JSVal) (maxLength : Nat) : Bool :=
  match value with
  | JSVal.str s =>
      let trimmed := trimChars s
      if trimmed.length = 0 then false
      else if maxLength < trimmed.length then false
      else true
  | _ => false

/-- `validateSearchObject(obj)` (`content.js` 74-94): rejects
`undefined`/`null`, non-objects, arrays, objects missing `name` or `q`;
otherwise both fields must pass `validateString`. -/
def validateSearchObject (v : JSVal) : Bool :=
  match v with
  | JSVal.obj fs =>
      hasProp fs "name" && hasProp fs "q" &&
      validateString (getProp fs "name") MAX_NAME_LENGTH &&
      validateString (getProp fs "q") MAX_QUERY_LENGTH
  | _ => false

/-- `validateSearchesArray(data)` (`content.js` 102-121): rejects
non-arrays, empty arrays, arrays longer than `MAX_SEARCHES`, and arrays
with an element failing `validateSearchObject`. -/
def validateSearchesArray (v : JSVal) : Bool :=
  match v with
  | JSVal.arr xs =>
      if xs.length = 0 then false
      else if MAX_SEARCHES < xs.length then false
      else xs.all validateSearchObject
  | _ => false

/-! ## Sanitizer (`content.js` 129-142) -/

/-- One iteration of the loop in `sanitizeSearchesArray`: build
`{ name: item.name.trim(), q: item.q.trim() }`.  If `item.name` or
`item.q` is not a string, `.trim()` is not a function and the iteration
throws, modelled as `none`. -/
def sanitizeItem (item : JSVal) : Option JSVal :=
  match item with
  | JSVal.obj fs =>
      match getProp fs "name", getProp fs "q" with
      | JSVal.str n, JSVal.str q =>
          some (JSVal.obj [("name", JSVal.str (trimChars n)),
                           ("q", JSVal.str (trimChars q))])
      | _, _ => none
  | _ => none

/-- The sanitizing loop over the array's elements; the first throwing
element aborts the whole loop. -/
def sanitizeList : List JSVal → Option (List JSVal)
  | [] => some []
  | x :: xs =>
      match sanitizeItem x, sanitizeList xs with
      | some y, some ys => some (y :: ys)
      | _, _ => none

/-- `sanitizeSearchesArray(data)` (`content.js` 129-142): a non-array
input returns a copy of `DEFAULT_SEARCHES`; an array is rebuilt
element-by-element into fresh two-property objects with trimmed fields. -/
def sanitizeSearchesArray (v : JSVal) : Option JSVal :=
  match v with
  | JSVal.arr xs => (sanitizeList xs).map JSVal.arr
  | _ => some defaultSearchesJS

/-! ## Storage adapters -/

/-- Outcome of `chrome.storage.local.get([STORAGE_KEY])`: either the
value found under the fixed key (`none` when the key is absent, i.e. the
read yields `undefined`), or a thrown storage error. -/
inductive StoreRead : Type where
  | ok : Option JSVal → StoreRead
  | err : StoreRead

/-- `loadSearchesFromStorage()` (`content.js` 153-173): absent value,
value failing `validateSearchesArray`, or a storage exception all yield
the default collection; a validated value is returned sanitized.  (The
`catch` also covers a throw from the sanitizer, hence the `getD`.) -/
def loadSearchesFromStorage : StoreRead → JSVal
  | StoreRead.err => defaultSearchesJS
  | StoreRead.ok none => defaultSearchesJS
  | StoreRead.ok (some data) =>
      if validateSearchesArray data then
        (sanitizeSearchesArray data).getD defaultSearchesJS
      else defaultSearchesJS

/-- `saveSearchesToStorage(searches)` (`content.js` 180-200), given the
currently stored value and whether the underlying `set` succeeds.
Returns the boolean result together with the stored value afterwards. -/
def saveSearchesToStorage (searches : JSVal) (stored : Option JSVal)
    (setOk : Bool) : Bool × Option JSVal :=
  if validateSearchesArray searches then
    match sanitizeSearchesArray searches with
    | some sanitized => if setOk then (true, some sanitized) else (false, stored)
    | none => (false, stored)
  else (false, stored)

/-- `loadSearches()` from `manage.js` 161-175 (the popup's loader in
`popup.js` 26-40 is identical): only absence, falsy values, non-arrays
and empty arrays fall back to the defaults — a non-empty array is
returned as stored, without `validateSearchesArray` and without
sanitizing. -/
def loadSearches : StoreRead → JSVal
  | StoreRead.err => defaultSearchesJS
  | StoreRead.ok none => defaultSearchesJS
  | StoreRead.ok (some v) =>
      match v with
      | JSVal.arr xs => if xs.length = 0 then defaultSearchesJS else JSVal.arr xs
      | _ => defaultSearchesJS

/-- `saveSearches(searches)` from `manage.js` 180-188: writes the value
under the fixed key with no validation and no sanitizing; returns false
only when the underlying `set` throws. -/
def saveSearches (searches : JSVal) (stored : Option JSVal)
    (setOk : Bool) : Bool × Option JSVal :=
  if setOk then (true, some searches) else (false, stored)

/-! ## Dangerous-pattern detector (`manage.js` 40-62) -/

/-- The literal, case-insensitive substring patterns of the `dangerous`
regex list: `/<script/i`, `/<iframe/i`, `/<embed/i`, `/<object/i`,
`/javascript:/i`, `/data:/i`, `/vbscript:/i`, and the call-like
`/eval\(/i`, `/expression\(/i`. -/
def dangerousSubstrings : List (List Char) :=
  ["<script".data, "<iframe".data, "<embed".data, "<object".data,
   "javascript:".data, "data:".data, "vbscript:".data,
   "eval(".data, "expression(".data]

/-- Match of `/on\w+\s*=/i` at the head of a (lower-cased) string:
`on`, one or more word characters, optional whitespace, `=`. -/
def onHandlerAt : List Char → Bool
  | 'o' :: 'n' :: rest =>
      (!(rest.takeWhile isWordChar).isEmpty) &&
      (match (rest.dropWhile isWordChar).dropWhile isJsWhitespace with
       | '=' :: _ => true
       | _ => false)
  | _ => false

def containsOnHandler (s : List Char) : Bool :=
  s.tails.any onHandlerAt

/-- Scan for `[^>]+src` (at least one non-`>` character, then `src`)
after a `<img` match; `k` counts characters already consumed. -/
def imgSrcFrom (k : Nat) : List Char → Bool
  | [] => false
  | c :: rest =>
      if decide (1 ≤ k) && List.isPrefixOf "src".data (c :: rest) then true
      else if c = '>' then false
      else imgSrcFrom (k + 1) rest

/-- Match of `/<img[^>]+src/i` anywhere in a (lower-cased) string. -/
def containsImgSrc (s : List Char) : Bool :=
  s.tails.any (fun t => List.isPrefixOf "<img".data t && imgSrcFrom 0 (t.drop 4))

/-- `containsDangerousPatterns(value)` (`manage.js` 40-62): true when
any of the eleven regexes matches. -/
def containsDangerousPatterns (value : List Char) : Bool :=
  let s := lowerChars value
  dangerousSubstrings.any (fun pat => containsSub pat s) ||
  containsOnHandler s || containsImgSrc s

/-! ## Gmail-query validator (`manage.js` 68-116) -/

/-- The `validOperators` vocabulary (`manage.js` 80-87). -/
def validOperators : List (List Char) :=
  ["from:".data, "to:".data, "subject:".data, "label:".data, "has:".data,
   "is:".data, "in:".data, "cc:".data, "bcc:".data, "after:".data,
   "before:".data, "older:".data, "newer:".data, "category:".data,
   "size:".data, "larger:".data, "smaller:".data, "filename:".data,
   "has:attachment".data, "has:drive".data, "has:document".data,
   "has:spreadsheet".data, "has:presentation".data, "has:youtube".data,
   "has:nouserlabels".data, "is:unread".data, "is:read".data,
   "is:starred".data, "is:important".data, "is:chat".data]

def hasOperatorIn (query : List Char) : Bool :=
  validOperators.any (fun op => containsSub op (lowerChars query))

def hasTextIn (query : List Char) : Bool :=
  query.any isAsciiAlnum

/-- Match of `pat1` + `\s+` + `pat2` (as in `/union\s+select/i`) at any
position of a (lower-cased) string. -/
def seqWsSeq (pat1 pat2 s : List Char) : Bool :=
  s.tails.any (fun t =>
    List.isPrefixOf pat1 t &&
    (let r := t.drop pat1.length
     (!(r.takeWhile isJsWhitespace).isEmpty) &&
     List.isPrefixOf pat2 (r.dropWhile isJsWhitespace)))

/-- Match of `/update\s+\w+\s+set/i` at any position. -/
def updateSetPattern (s : List Char) : Bool :=
  s.tails.any (fun t =>
    List.isPrefixOf "update".data t &&
    (let r := t.drop 6
     let r1 := r.dropWhile isJsWhitespace
     let r2 := r1.dropWhile isWordChar
     (!(r.takeWhile isJsWhitespace).isEmpty) &&
     (!(r1.takeWhile isWordChar).isEmpty) &&
     (!(r2.takeWhile isJsWhitespace).isEmpty) &&
     List.isPrefixOf "set".data (r2.dropWhile isJsWhitespace)))

/-- The line terminators that the regex `.` does not match. -/
def isLineTerm (c : Char) : Bool :=
  [10, 13, 0x2028, 0x2029].contains c.toNat

/-- Scan of `.*drop` after a `;`: looks for `drop` with only
non-line-terminator characters in between. -/
def dropAfterGapScan : List Char → Bool
  | [] => false
  | c :: rest =>
      List.isPrefixOf "drop".data (c :: rest) ||
      (!isLineTerm c && dropAfterGapScan rest)

/-- Match of `/;.*drop/i` anywhere in a (lower-cased) string. -/
def semicolonDropPattern (s : List Char) : Bool :=
  s.tails.any (fun t =>
    match t with
    | ';' :: r => dropAfterGapScan r
    | _ => false)

/-- The `sqlPatterns` block (`manage.js` 99-113): any match is
rejected.  `/--/` has no `i` flag but contains no letters; the others
are applied to the lower-cased query. -/
def containsSqlPatterns (query : List Char) : Bool :=
  let s := lowerChars query
  seqWsSeq "union".data "select".data s ||
  seqWsSeq "drop".data "table".data s ||
  seqWsSeq "insert".data "into".data s ||
  seqWsSeq "delete".data "from".data s ||
  updateSetPattern s ||
  containsSub "--".data query ||
  semicolonDropPattern s

/-- Result of `validateGmailQuery`: `{valid: true}` or
`{valid: false, error: message}`. -/
inductive QueryCheck : Type where
  | valid : QueryCheck
  | invalid : String → QueryCheck
deriving DecidableEq

/-- `validateGmailQuery(query)` (`manage.js` 68-116): empty after trim,
then dangerous patterns, then the operator-or-text heuristic, then the
SQL-shaped patterns, in that order. -/
def validateGmailQuery (query : List Char) : QueryCheck :=
  if (trimChars query).length = 0 then
    QueryCheck.invalid "Query cannot be empty"
  else if containsDangerousPatterns query then
    QueryCheck.invalid "Query contains invalid characters or patterns"
  else if !hasOperatorIn query && !hasTextIn query then
    QueryCheck.invalid "Query must contain text or valid Gmail operators"
  else if containsSqlPatterns query then
    QueryCheck.invalid "Query contains invalid patterns"
  else QueryCheck.valid

/-! ## Deletion (`content.js` 1024-1047, `manage.js` 407-422) -/

/-- `handleDelete(index)` (`content.js` 1024-1047) acting on the
in-memory collection of (name, q) records: out-of-range indices and a
declined confirmation dialog leave everything unchanged; otherwise the
record is spliced out, an emptied collection is replaced by
`DEFAULT_SEARCHES`, and the result is handed to
`saveSearchesToStorage`.  Returns the new in-memory collection and the
stored value afterwards. -/
def handleDeleteOp (searches : List (List Char × List Char)) (index : Nat)
    (confirmed : Bool) (stored : Option JSVal) (setOk : Bool) :
    List (List Char × List Char) × Option JSVal :=
  if index < searches.length then
    if confirmed then
      let spliced := searches.eraseIdx index
      let next := if spliced.length = 0 then DEFAULT_SEARCHES else spliced
      (next, (saveSearchesToStorage (toJS next) stored setOk).2)
    else (searches, stored)
  else (searches, stored)

/-- `deleteSearch(index)` (`manage.js` 407-422): same splice-and-restore
logic, but persisting through the manage page's unvalidated
`saveSearches`; an out-of-range index makes `search.name` throw
(`none`). -/
def deleteSearchOp (searches : List (List Char × List Char)) (index : Nat)
    (confirmed : Bool) (stored : Option JSVal) (setOk : Bool) :
    Option (List (List Char × List Char) × Option JSVal) :=
  match searches.get? index with
  | none => none
  | some _ =>
      if confirmed then
        let spliced := searches.eraseIdx index
        let next := if spliced.length = 0 then DEFAULT_SEARCHES else spliced
        some (next, (saveSearches (toJS next) stored setOk).2)
      else some (searches, stored)

/-! ## Mount controller (`content.js` 852-883, 1079-1116) -/

/-- The reserved id of the panel's host element (`content.js` 235). -/
def wizmailHostId : String := "wizmail-saved-searches-host"

/-- The host document, abstracted to the ids of the elements currently
connected to it. -/
def isPanelMounted (doc : List String) : Bool :=
  decide (wizmailHostId ∈ doc)

/-- `insertPanelIntoDOM(hostElement)` (`content.js` 852-871): when the
navigation container is found the host element becomes connected (after
the Labels header or appended — either way connected); otherwise
nothing is inserted and false is returned. -/
def insertPanelIntoDOM (doc : List String) (navFound : Bool) :
    Bool × List String :=
  if navFound then (true, doc ++ [wizmailHostId]) else (false, doc)

/-- `renderPanel()` (`content.js` 1079-1116): a no-op when
`isPanelMounted()` already holds; otherwise builds the panel subtree and
inserts it. -/
def renderPanel (doc : List String) (navFound : Bool) : List String :=
  if isPanelMounted doc then doc
  else (insertPanelIntoDOM doc navFound).2

/-! ## Navigation handler (`content.js` 772-788) -/

/-- UTF-8 bytes of a code point, as produced by `encodeURIComponent`'s
escaping. -/
def utf8Bytes (c : Char) : List Nat :=
  let n := c.toNat
  if n < 0x80 then [n]
  else if n < 0x800 then [0xC0 + n / 0x40, 0x80 + n % 0x40]
  else if n < 0x10000 then
    [0xE0 + n / 0x1000, 0x80 + (n / 0x40) % 0x40, 0x80 + n % 0x40]
  else
    [0xF0 + n / 0x40000, 0x80 + (n / 0x1000) % 0x40,
     0x80 + (n / 0x40) % 0x40, 0x80 + n % 0x40]

def hexDigitUpper (n : Nat) : Char :=
  if n < 10 then Char.ofNat (48 + n) else Char.ofNat (55 + n)

/-- The characters `encodeURIComponent` leaves unescaped:
`A-Z a-z 0-9 - _ . ! ~ * ' ( )`. -/
def isUriUnreserved (c : Char) : Bool :=
  isAsciiAlnum c ||
  [45, 95, 46, 33, 126, 42, 39, 40, 41].contains c.toNat

/-- `encodeURIComponent(query)`: every other character is replaced by
the `%XX` upper-case hex escapes of its UTF-8 bytes. -/
def encodeURIComponent (s : List Char) : List Char :=
  (s.map (fun c =>
    if isUriUnreserved c then [c]
    else ((utf8Bytes c).map (fun b =>
      ['%', hexDigitUpper (b / 16), hexDigitUpper (b % 16)])).flatten)).flatten

/-- `handleSearchClick(search)` (`content.js` 772-788), returning the
sequence of values assigned to `window.location.hash`: when the current
hash already equals the computed target, first `#inbox` and then (after
the 100 ms timeout) the target; otherwise just the target. -/
def handleSearchClick (q currentHash : List Char) : List (List Char) :=
  let targetHash := "#search/".data ++ encodeURIComponent q
  if currentHash = targetHash then ["#inbox".data, targetHash]
  else [targetHash]

/-! ## Specification-side predicates -/

/-- The relation, taken from the specification's wording for the
sanitizer, between an input record and the corresponding output record:
the output is a fresh object holding exactly a `name` and a `q`
property, whose values are the trimmed `name`/`q` of the input. -/
def sanitizedPair (x y : JSVal) : Prop :=
  ∃ fs n q, x = JSVal.obj fs ∧
    getProp fs "name" = JSVal.str n ∧ getProp fs "q" = JSVal.str q ∧
    y = JSVal.obj [("name", JSVal.str (trimChars n)),
                   ("q", JSVal.str (trimChars q))]

/-- The claim's reading of the last SQL-shaped pattern: a `;` followed
anywhere later in the string by `drop` (case-insensitively), with no
restriction on the characters in between. -/
def specSemicolonThenDrop (q : List Char) : Bool :=
  (lowerChars q).tails.any (fun t =>
    match t with
    | ';' :: r => containsSub "drop".data r
    | _ => false)

/-! ## Basic lemmas about the string model -/

theorem dropWhile_idem (p : α → Bool) (l : List α) :
    (l.dropWhile p).dropWhile p = l.dropWhile p := by
  induction l with
  | nil => rfl
  | cons a l ih =>
    cases ha : p a <;> simp [List.dropWhile, ha, ih]

theorem head?_dropWhile_false (p : α → Bool) (l : List α) :
    ∀ a, (l.dropWhile p).head? = some a → p a = false := by
  induction l with
  | nil => intro a h; simp [List.dropWhile] at h
  | cons b l ih =>
    intro a h
    cases hb : p b
    · simp [List.dropWhile, hb] at h
      simp [← h, hb]
    · simp [List.dropWhile, hb] at h
      exact ih a h

theorem dropWhile_eq_self_of_head (p : α → Bool) (l : List α)
    (h : ∀ a, l.head? = some a → p a = false) : l.dropWhile p = l := by
  cases l with
  | nil => rfl
  | cons a l =>
    have : p a = false := h a rfl
    simp [List.dropWhile, this]

theorem head?_of_prefix {l₁ l₂ : List α} (h : l₁ <+: l₂) {a : α}
    (ha : l₁.head? = some a) : l₂.head? = some a := by
  obtain ⟨t, rfl⟩ := h
  cases l₁ with
  | nil => simp at ha
  | cons b l => simpa using ha

theorem trimChars_prefix (s : List Char) :
    trimChars s <+: s.dropWhile isJsWhitespace := by
  have hsuf : ((s.dropWhile isJsWhitespace).reverse.dropWhile isJsWhitespace)
      <:+ (s.dropWhile isJsWhitespace).reverse :=
    List.dropWhile_suffix _
  rw [← List.reverse_suffix]
  simpa [trimChars] using hsuf

theorem trimChars_head (s : List Char) :
    ∀ a, (trimChars s).head? = some a → isJsWhitespace a = false := by
  intro a ha
  have hpre := trimChars_prefix s
  have := head?_of_prefix hpre ha
  exact head?_dropWhile_false isJsWhitespace s a this

/-- Trimming is idempotent. -/
theorem trimChars_idem (s : List Char) : trimChars (trimChars s) = trimChars s := by
  have h1 : (trimChars s).dropWhile isJsWhitespace = trimChars s :=
    dropWhile_eq_self_of_head _ _ (trimChars_head s)
  have h2 : (trimChars s).reverse
      = (s.dropWhile isJsWhitespace).reverse.dropWhile isJsWhitespace := by
    simp [trimChars]
  show (((trimChars s).dropWhile isJsWhitespace).reverse.dropWhile
      isJsWhitespace).reverse = trimChars s
  rw [h1, h2, dropWhile_idem]
  simp [trimChars]

theorem containsSub_iff (pat s : List Char) :
    containsSub pat s = true ↔ pat <:+: s := by
  unfold containsSub
  rw [List.any_eq_true]
  constructor
  · rintro ⟨t, ht, hp⟩
    rw [List.mem_tails] at ht
    rw [ List.isPrefixOf_iff_prefix] at hp
    exact List.infix_iff_prefix_suffix.mpr ⟨t, hp, ht⟩
  · intro h
    obtain ⟨t, hp, ht⟩ := List.infix_iff_prefix_suffix.mp h
    exact ⟨t, (List.mem_tails _ _).mpr ht, List.isPrefixOf_iff_prefix.mpr hp⟩


/-! ## Facts about the default collection -/

theorem default_searches_length : DEFAULT_SEARCHES.length = 8 := rfl

theorem default_searches_valid : validateSearchesArray defaultSearchesJS = true := by
  decide

theorem sanitize_defaults :
    sanitizeSearchesArray defaultSearchesJS = some defaultSearchesJS := by
  rfl

/-! ## Characterizations of the validators -/

theorem validateString_characterization (v : JSVal) (maxLen : Nat) :
    validateString v maxLen = true ↔
      ∃ s, v = JSVal.str s ∧ trimChars s ≠ [] ∧ (trimChars s).length ≤ maxLen := by
  cases v with
  | str s =>
      simp only [validateString]
      split_ifs with h1 h2
      · simp only [Bool.false_eq_true, false_iff]
        rintro ⟨t, ht, hne, _⟩
        injection ht with ht
        subst ht
        exact hne (List.length_eq_zero.mp h1)
      · simp only [Bool.false_eq_true, false_iff]
        rintro ⟨t, ht, _, hle⟩
        injection ht with ht
        subst ht
        omega
      · simp only [true_iff]
        exact ⟨s, rfl, fun hnil => h1 (by simp [hnil]), by omega⟩
  | undef => simp [validateString]
  | null => simp [validateString]
  | bool b => simp [validateString]
  | num n => simp [validateString]
  | arr xs => simp [validateString]
  | obj fs => simp [validateString]

theorem validateSearchObject_characterization (v : JSVal) :
    validateSearchObject v = true ↔
      ∃ fs, v = JSVal.obj fs ∧
        hasProp fs "name" = true ∧ hasProp fs "q" = true ∧
        (∃ n, getProp fs "name" = JSVal.str n ∧
          trimChars n ≠ [] ∧ (trimChars n).length ≤ 100) ∧
        (∃ q, getProp fs "q" = JSVal.str q ∧
          trimChars q ≠ [] ∧ (trimChars q).length ≤ 500) := by
  cases v with
  | obj fs =>
      simp only [validateSearchObject, Bool.and_eq_true,
        validateString_characterization, MAX_NAME_LENGTH, MAX_QUERY_LENGTH]
      constructor
      · rintro ⟨⟨⟨h1, h2⟩, h3⟩, h4⟩
        exact ⟨fs, rfl, h1, h2, h3, h4⟩
      · rintro ⟨fs2, hfs, h1, h2, h3, h4⟩
        injection hfs with hfs
        subst hfs
        exact ⟨⟨⟨h1, h2⟩, h3⟩, h4⟩
  | undef => simp [validateSearchObject]
  | null => simp [validateSearchObject]
  | bool b => simp [validateSearchObject]
  | num n => simp [validateSearchObject]
  | str s => simp [validateSearchObject]
  | arr xs => simp [validateSearchObject]

theorem validateSearchesArray_characterization (v : JSVal) :
    validateSearchesArray v = true ↔
      ∃ xs, v = JSVal.arr xs ∧ 1 ≤ xs.length ∧ xs.length ≤ 50 ∧
        ∀ x ∈ xs, validateSearchObject x = true := by
  cases v with
  | arr xs =>
      simp only [validateSearchesArray, MAX_SEARCHES]
      split_ifs with h1 h2
      · simp only [Bool.false_eq_true, false_iff]
        rintro ⟨ys, hy, hge, _, _⟩
        injection hy with hy
        subst hy
        omega
      · simp only [Bool.false_eq_true, false_iff]
        rintro ⟨ys, hy, _, hle, _⟩
        injection hy with hy
        subst hy
        omega
      · rw [List.all_eq_true]
        constructor
        · intro h
          exact ⟨xs, rfl, by omega, by omega, h⟩
        · rintro ⟨ys, hy, _, _, h⟩
          injection hy with hy
          subst hy
          exact h
  | undef => simp [validateSearchesArray]
  | null => simp [validateSearchesArray]
  | bool b => simp [validateSearchesArray]
  | num n => simp [validateSearchesArray]
  | str s => simp [validateSearchesArray]
  | obj fs => simp [validateSearchesArray]

/-! ## Lemmas about the sanitizer -/

theorem sanitizeItem_of_valid (x : JSVal) (h : validateSearchObject x = true) :
    ∃ y, sanitizeItem x = some y ∧ sanitizedPair x y := by
  obtain ⟨fs, rfl, _, _, ⟨n, hn, _, _⟩, ⟨q, hq, _, _⟩⟩ :=
    (validateSearchObject_characterization x).mp h
  refine ⟨_, ?_, ⟨fs, n, q, rfl, hn, hq, rfl⟩⟩
  simp [sanitizeItem, hn, hq]

theorem sanitizeList_of_valid (xs : List JSVal)
    (h : ∀ x ∈ xs, validateSearchObject x = true) :
    ∃ ys, sanitizeList xs = some ys ∧ List.Forall₂ sanitizedPair xs ys := by
  induction xs with
  | nil => exact ⟨[], rfl, List.Forall₂.nil⟩
  | cons x xs ih =>
      obtain ⟨y, hy, hp⟩ := sanitizeItem_of_valid x (h x (by simp))
      obtain ⟨ys, hys, hps⟩ := ih (fun z hz => h z (by simp [hz]))
      exact ⟨y :: ys, by simp [sanitizeList, hy, hys], List.Forall₂.cons hp hps⟩

theorem sanitizeItem_fixed (x y : JSVal) (h : sanitizeItem x = some y) :
    sanitizeItem y = some y := by
  cases x with
  | obj fs =>
      cases hn : getProp fs "name" <;> cases hq : getProp fs "q" <;>
        simp [sanitizeItem, hn, hq] at h
      case str.str n q =>
        subst h
        have e1 : getProp [("name", JSVal.str (trimChars n)),
            ("q", JSVal.str (trimChars q))] "name" = JSVal.str (trimChars n) := rfl
        have e2 : getProp [("name", JSVal.str (trimChars n)),
            ("q", JSVal.str (trimChars q))] "q" = JSVal.str (trimChars q) := rfl
        simp [sanitizeItem, e1, e2, trimChars_idem]
  | undef => simp [sanitizeItem] at h
  | null => simp [sanitizeItem] at h
  | bool b => simp [sanitizeItem] at h
  | num n => simp [sanitizeItem] at h
  | str s => simp [sanitizeItem] at h
  | arr xs => simp [sanitizeItem] at h

theorem sanitizeList_fixed (xs ys : List JSVal) (h : sanitizeList xs = some ys) :
    sanitizeList ys = some ys := by
  induction xs generalizing ys with
  | nil =>
      simp only [sanitizeList, Option.some.injEq] at h
      subst h
      rfl
  | cons x xs ih =>
      simp only [sanitizeList] at h
      cases hx : sanitizeItem x <;> rw [hx] at h
      · exact absurd h (by simp)
      · cases hxs : sanitizeList xs <;> rw [hxs] at h
        · exact absurd h (by simp)
        · simp only [Option.some.injEq] at h
          subst h
          simp [sanitizeList, sanitizeItem_fixed x _ hx, ih _ hxs]

theorem sanitize_bind_self (c : JSVal) :
    (sanitizeSearchesArray c).bind sanitizeSearchesArray
      = sanitizeSearchesArray c := by
  cases c with
  | arr xs =>
      cases h : sanitizeList xs with
      | none => simp [sanitizeSearchesArray, h]
      | some ys =>
          have h2 := sanitizeList_fixed xs ys h
          simp [sanitizeSearchesArray, h, h2]
  | undef => simpa [sanitizeSearchesArray] using sanitize_defaults
  | null => simpa [sanitizeSearchesArray] using sanitize_defaults
  | bool b => simpa [sanitizeSearchesArray] using sanitize_defaults
  | num n => simpa [sanitizeSearchesArray] using sanitize_defaults
  | str s => simpa [sanitizeSearchesArray] using sanitize_defaults
  | obj fs => simpa [sanitizeSearchesArray] using sanitize_defaults

/-! ## Lemmas about the query validator -/

theorem hasOperatorIn_iff (q : List Char) :
    hasOperatorIn q = true ↔ ∃ op ∈ validOperators, op <:+: lowerChars q := by
  unfold hasOperatorIn
  rw [List.any_eq_true]
  constructor
  · rintro ⟨op, hop, hc⟩
    exact ⟨op, hop, (containsSub_iff _ _).mp hc⟩
  · rintro ⟨op, hop, hc⟩
    exact ⟨op, hop, (containsSub_iff _ _).mpr hc⟩

theorem hasTextIn_iff (q : List Char) :
    hasTextIn q = true ↔ ∃ c ∈ q, isAsciiAlnum c = true :=
  List.any_eq_true

/-! ## Lemmas about the navigation encoder -/

theorem utf8Bytes_lt (c : Char) : ∀ b ∈ utf8Bytes c, b < 256 := by
  have hc : c.toNat < 1114112 := by
    rcases c.valid with h | ⟨h1, h2⟩ <;> simp [Char.toNat] <;> omega
  intro b hb
  simp only [utf8Bytes] at hb
  split_ifs at hb with h1 h2 h3 <;> simp at hb <;> omega

theorem hexDigitUpper_mem :
    ∀ n, n < 16 → hexDigitUpper n ∈ "0123456789ABCDEF".data := by
  decide

theorem mem_encodeURIComponent (q : List Char) (c : Char)
    (h : c ∈ encodeURIComponent q) :
    isUriUnreserved c = true ∨ c = '%' ∨ c ∈ "0123456789ABCDEF".data := by
  unfold encodeURIComponent at h
  rw [List.mem_flatten] at h
  obtain ⟨l, hl, hcl⟩ := h
  rw [List.mem_map] at hl
  obtain ⟨d, _, rfl⟩ := hl
  by_cases hu : isUriUnreserved d
  · simp only [hu, if_pos, List.mem_singleton] at hcl
    subst hcl
    exact Or.inl hu
  · simp only [hu, if_neg, Bool.false_eq_true, if_false] at hcl
    rw [List.mem_flatten] at hcl
    obtain ⟨l2, hl2, hc2⟩ := hcl
    rw [List.mem_map] at hl2
    obtain ⟨b, hb, rfl⟩ := hl2
    have hblt := utf8Bytes_lt d b hb
    simp only [List.mem_cons, List.mem_singleton, List.not_mem_nil, or_false] at hc2
    rcases hc2 with rfl | rfl | rfl
    · exact Or.inr (Or.inl rfl)
    · exact Or.inr (Or.inr (hexDigitUpper_mem _ (by omega)))
    · exact Or.inr (Or.inr (hexDigitUpper_mem _ (by omega)))

theorem space_not_mem_encode (q : List Char) : ' ' ∉ encodeURIComponent q := by
  intro h
  rcases mem_encodeURIComponent q _ h with h1 | h1 | h1 <;> revert h1 <;> decide

theorem amp_not_mem_encode (q : List Char) : '&' ∉ encodeURIComponent q := by
  intro h
  rcases mem_encodeURIComponent q _ h with h1 | h1 | h1 <;> revert h1 <;> decide

/-! ## The claims -/

/-- Claim C1.  The claim (and the repository's security documentation)
requires every load to re-validate the stored value and to fall back to
the built-in default collection when the value is absent, invalid, or
the store throws.  `loadSearchesFromStorage` (`content.js`) does exactly
that, but `loadSearches` (`manage.js`, likewise `popup.js`) returns any
non-empty stored array unvalidated and unsanitized: at the stored value
`[42]` it returns `[42]` even though `validateSearchesArray` rejects
it, while the content script's loader falls back to the defaults. -/
theorem claim_c1_load_validation :
    validateSearchesArray (JSVal.arr [JSVal.num 42]) = false ∧
    loadSearches (StoreRead.ok (some (JSVal.arr [JSVal.num 42])))
      = JSVal.arr [JSVal.num 42] ∧
    loadSearchesFromStorage (StoreRead.ok (some (JSVal.arr [JSVal.num 42])))
      = defaultSearchesJS ∧
    loadSearchesFromStorage StoreRead.err = defaultSearchesJS ∧
    loadSearchesFromStorage (StoreRead.ok none) = defaultSearchesJS :=
  ⟨by decide, rfl, rfl, rfl, rfl⟩

/-- Claim C2.  The claim requires `save` to re-validate and never to
persist unvalidated data, returning false without writing when the
collection is invalid.  `saveSearchesToStorage` (`content.js`) refuses
the invalid collection `[]` and leaves the store unchanged, but
`saveSearches` (`manage.js`) persists it and reports success. -/
theorem claim_c2_save_validation :
    validateSearchesArray (JSVal.arr []) = false ∧
    saveSearches (JSVal.arr []) none true = (true, some (JSVal.arr [])) ∧
    saveSearchesToStorage (JSVal.arr []) none true = (false, none) ∧
    saveSearchesToStorage (JSVal.arr []) (some defaultSearchesJS) true
      = (false, some defaultSearchesJS) :=
  ⟨by decide, rfl, rfl, rfl⟩

/-- Claim C3 (amended).  `validateSearchObject` returns false for
`undefined`/`null`, non-objects, arrays and objects missing `name` or
`q`; otherwise it returns true exactly when both fields are strings that
are non-empty after trimming and within the 100/500 trimmed-length
limits.  (Amendment: no dangerous-pattern check is involved — see the
counterexample.) -/
theorem claim_c3_record_validation (v : JSVal) :
    validateSearchObject v = true ↔
      ∃ fs, v = JSVal.obj fs ∧
        hasProp fs "name" = true ∧ hasProp fs "q" = true ∧
        (∃ n, getProp fs "name" = JSVal.str n ∧
          trimChars n ≠ [] ∧ (trimChars n).length ≤ 100) ∧
        (∃ q, getProp fs "q" = JSVal.str q ∧
          trimChars q ≠ [] ∧ (trimChars q).length ≤ 500) :=
  validateSearchObject_characterization v

/-- Claim C3, counterexample to the claim as stated: the record
`{name: "<script", q: "test"}` is accepted by `validateSearchObject`
although its `name` field fails the dangerous-pattern check — record
validation checks lengths only, not patterns. -/
theorem claim_c3_counterexample :
    validateSearchObject (JSVal.obj [("name", JSVal.str "<script".data),
      ("q", JSVal.str "test".data)]) = true ∧
    containsDangerousPatterns "<script".data = true :=
  ⟨by decide, by decide⟩

/-- Claim C3, witness: a concrete record accepted by the
characterization. -/
theorem claim_c3_witness :
    validateSearchObject (searchObj ("Inbox".data, "in:inbox".data)) = true :=
  (claim_c3_record_validation _).mpr
    ⟨_, rfl, by decide, by decide,
      ⟨"Inbox".data, rfl, by decide, by decide⟩,
      ⟨"in:inbox".data, rfl, by decide, by decide⟩⟩

/-- Claim C4 (amended).  `validateGmailQuery` applies its checks in the
claimed order: empty after trim, dangerous pattern, the
operator-or-alphanumeric heuristic, and the SQL-shaped patterns.
(Amendment: the final `;`-then-`drop` pattern is the regex `/;.*drop/i`,
whose gap does not span line terminators — see the counterexample.) -/
theorem claim_c4_query_check_order (query : List Char) :
    (trimChars query = [] →
       validateGmailQuery query = QueryCheck.invalid "Query cannot be empty") ∧
    (trimChars query ≠ [] → containsDangerousPatterns query = true →
       validateGmailQuery query
         = QueryCheck.invalid "Query contains invalid characters or patterns") ∧
    (trimChars query ≠ [] → containsDangerousPatterns query = false →
       ¬(∃ op ∈ validOperators, op <:+: lowerChars query) →
       ¬(∃ c ∈ query, isAsciiAlnum c = true) →
       validateGmailQuery query
         = QueryCheck.invalid "Query must contain text or valid Gmail operators") ∧
    (trimChars query ≠ [] → containsDangerousPatterns query = false →
       ((∃ op ∈ validOperators, op <:+: lowerChars query) ∨
        (∃ c ∈ query, isAsciiAlnum c = true)) →
       containsSqlPatterns query = true →
       validateGmailQuery query
         = QueryCheck.invalid "Query contains invalid patterns") ∧
    (trimChars query ≠ [] → containsDangerousPatterns query = false →
       ((∃ op ∈ validOperators, op <:+: lowerChars query) ∨
        (∃ c ∈ query, isAsciiAlnum c = true)) →
       containsSqlPatterns query = false →
       validateGmailQuery query = QueryCheck.valid) := by
  have hlen : ((trimChars query).length = 0) ↔ (trimChars query = []) :=
    List.length_eq_zero
  refine ⟨?_, ?_, ?_, ?_, ?_⟩
  · intro h
    simp [validateGmailQuery, h]
  · intro h1 h2
    simp only [validateGmailQuery]
    rw [if_neg (fun hh => h1 (hlen.mp hh)), if_pos h2]
  · intro h1 h2 h3 h4
    have ho : hasOperatorIn query = false := by
      cases hb : hasOperatorIn query
      · rfl
      · exact absurd ((hasOperatorIn_iff query).mp hb) h3
    have ht : hasTextIn query = false := by
      cases hb : hasTextIn query
      · rfl
      · exact absurd ((hasTextIn_iff query).mp hb) h4
    simp only [validateGmailQuery]
    rw [if_neg (fun hh => h1 (hlen.mp hh)), if_neg (by simp [h2]),
        if_pos (by simp [ho, ht])]
  · intro h1 h2 hor h4
    have hop : (!hasOperatorIn query && !hasTextIn query) = false := by
      rcases hor with hc | hc
      · have hb := (hasOperatorIn_iff query).mpr hc
        simp [hb]
      · have hb := (hasTextIn_iff query).mpr hc
        simp [hb]
    simp only [validateGmailQuery]
    rw [if_neg (fun hh => h1 (hlen.mp hh)), if_neg (by simp [h2]),
        if_neg (by simp [hop]), if_pos h4]
  · intro h1 h2 hor h4
    have hop : (!hasOperatorIn query && !hasTextIn query) = false := by
      rcases hor with hc | hc
      · have hb := (hasOperatorIn_iff query).mpr hc
        simp [hb]
      · have hb := (hasTextIn_iff query).mpr hc
        simp [hb]
    simp only [validateGmailQuery]
    rw [if_neg (fun hh => h1 (hlen.mp hh)), if_neg (by simp [h2]),
        if_neg (by simp [hop]), if_neg (by simp [h4])]

/-- Claim C4, counterexample to the claim as stated: the query
`";\ndrop"` has a `;` followed later by `drop` — so by the claim's
wording the SQL-shaped check should reject it — and it passes every
earlier check, yet `validateGmailQuery` accepts it, because the regex
`/;.*drop/i` does not let `.*` cross the line terminator. -/
theorem claim_c4_counterexample :
    validateGmailQuery (";\ndrop".data) = QueryCheck.valid ∧
    trimChars (";\ndrop".data) ≠ [] ∧
    containsDangerousPatterns (";\ndrop".data) = false ∧
    (∃ c ∈ (";\ndrop".data), isAsciiAlnum c = true) ∧
    specSemicolonThenDrop (";\ndrop".data) = true :=
  ⟨by decide, by decide, by decide, by decide, by decide⟩

/-- Claim C4, witness: the default query `is:unread` reaches the final
branch and is accepted. -/
theorem claim_c4_witness :
    validateGmailQuery "is:unread".data = QueryCheck.valid :=
  (claim_c4_query_check_order "is:unread".data).2.2.2.2 (by decide) (by decide)
    (Or.inl ⟨"is:".data, by decide, by decide⟩) (by decide)

/-- Claim C5.  `validateSearchesArray` accepts exactly the arrays of
length between 1 and 50 whose every element is a valid record;
non-arrays, empty arrays, oversized arrays and arrays with a single
invalid element are all rejected. -/
theorem claim_c5_collection_validation (v : JSVal) :
    validateSearchesArray v = true ↔
      ∃ xs, v = JSVal.arr xs ∧ 1 ≤ xs.length ∧ xs.length ≤ 50 ∧
        ∀ x ∈ xs, validateSearchObject x = true :=
  validateSearchesArray_characterization v

/-- Claim C5, witness: a concrete singleton collection is accepted. -/
theorem claim_c5_witness :
    validateSearchesArray
      (JSVal.arr [searchObj ("Starred".data, "is:starred".data)]) = true :=
  (claim_c5_collection_validation _).mpr ⟨_, rfl, by decide, by decide, by decide⟩

/-- Claim C6.  Deleting the only remaining record (after confirmation)
replaces the collection with the 8-record built-in default set in both
delete paths (`handleDelete` of `content.js` and `deleteSearch` of
`manage.js`), and the replacement collection is immediately persisted;
moreover deletion keeps the collection length within `[1, 50]`. -/
theorem claim_c6_delete_last_restores_defaults
    (s : List (List Char × List Char)) (i : Nat) (stored : Option JSVal) :
    (s.length = 1 →
       handleDeleteOp s 0 true stored true
         = (DEFAULT_SEARCHES, some defaultSearchesJS) ∧
       deleteSearchOp s 0 true stored true
         = some (DEFAULT_SEARCHES, some defaultSearchesJS) ∧
       DEFAULT_SEARCHES.length = 8) ∧
    (1 ≤ s.length → s.length ≤ 50 →
       1 ≤ (handleDeleteOp s i true stored true).1.length ∧
       (handleDeleteOp s i true stored true).1.length ≤ 50) := by
  constructor
  · intro h
    obtain ⟨a, rfl⟩ := List.length_eq_one.mp h
    exact ⟨rfl, rfl, rfl⟩
  · intro h1 h2
    by_cases hi : i < s.length
    · have hstep : (handleDeleteOp s i true stored true).1
          = if (s.eraseIdx i).length = 0 then DEFAULT_SEARCHES
            else s.eraseIdx i := by
        simp [handleDeleteOp, hi]
      rw [hstep]
      have hlen : (s.eraseIdx i).length = s.length - 1 := by
        rw [List.length_eraseIdx, if_pos hi]
      by_cases hz : (s.eraseIdx i).length = 0
      · rw [if_pos hz, default_searches_length]
        omega
      · rw [if_neg hz]
        omega
    · have hstep : (handleDeleteOp s i true stored true).1 = s := by
        simp [handleDeleteOp, hi]
      rw [hstep]
      omega

/-- Claim C6, witness: deleting the sole record of a concrete singleton
collection yields the persisted default set. -/
theorem claim_c6_witness :
    handleDeleteOp [("Unread".data, "is:unread".data)] 0 true none true
      = (DEFAULT_SEARCHES, some defaultSearchesJS) ∧
    deleteSearchOp [("Unread".data, "is:unread".data)] 0 true none true
      = some (DEFAULT_SEARCHES, some defaultSearchesJS) := by
  have h := (claim_c6_delete_last_restores_defaults
    [("Unread".data, "is:unread".data)] 0 none).1 (by decide)
  exact ⟨h.1, h.2.1⟩

/-- Claim C7.  `sanitizeSearchesArray` returns the built-in default
collection on non-array input; on a validated array it returns a new
array whose records hold exactly the trimmed `name`/`q` fields of the
corresponding inputs (`sanitizedPair`); and it is idempotent. -/
theorem claim_c7_sanitize (c : JSVal) :
    ((∀ xs, c ≠ JSVal.arr xs) →
       sanitizeSearchesArray c = some defaultSearchesJS) ∧
    (∀ xs, c = JSVal.arr xs → validateSearchesArray c = true →
       ∃ ys, sanitizeSearchesArray c = some (JSVal.arr ys) ∧
         List.Forall₂ sanitizedPair xs ys) ∧
    (sanitizeSearchesArray c).bind sanitizeSearchesArray
      = sanitizeSearchesArray c := by
  refine ⟨?_, ?_, sanitize_bind_self c⟩
  · intro h
    cases c with
    | arr xs => exact absurd rfl (h xs)
    | undef => rfl
    | null => rfl
    | bool b => rfl
    | num n => rfl
    | str s => rfl
    | obj fs => rfl
  · rintro xs rfl hv
    obtain ⟨ys0, hy, _, _, hall⟩ :=
      (validateSearchesArray_characterization _).mp hv
    injection hy with hy
    subst hy
    obtain ⟨ys, hys, hps⟩ := sanitizeList_of_valid _ hall
    exact ⟨ys, by simp [sanitizeSearchesArray, hys], hps⟩

/-- Claim C7, witness: applying the theorem at the non-array input
`{}` yields the default collection. -/
theorem claim_c7_witness :
    sanitizeSearchesArray (JSVal.obj []) = some defaultSearchesJS :=
  (claim_c7_sanitize (JSVal.obj [])).1 (fun _ h => JSVal.noConfusion h)

/-- Claim C8.  `renderPanel` is a no-op whenever `isPanelMounted`
already holds, so rendering twice with the panel already attached
leaves exactly one element carrying the reserved host id connected to
the host document. -/
theorem claim_c8_mount_idempotent (doc : List String) (nav1 nav2 : Bool) :
    (isPanelMounted doc = true → renderPanel doc nav1 = doc) ∧
    (doc.count wizmailHostId = 1 →
       ((renderPanel (renderPanel doc nav1) nav2).count wizmailHostId) = 1) := by
  have hnoop : isPanelMounted doc = true → ∀ nv, renderPanel doc nv = doc := by
    intro h nv
    simp [renderPanel, h]
  constructor
  · intro h
    exact hnoop h nav1
  · intro h
    have hm : isPanelMounted doc = true := by
      have hmem : wizmailHostId ∈ doc := List.count_pos_iff.mp (by omega)
      exact decide_eq_true hmem
    rw [hnoop hm nav1, hnoop hm nav2]
    exact h

/-- Claim C8, witness: with the panel already the only connected host
element, rendering twice keeps exactly one instance. -/
theorem claim_c8_witness :
    (renderPanel (renderPanel [wizmailHostId] true) false).count wizmailHostId
      = 1 :=
  (claim_c8_mount_idempotent [wizmailHostId] true false).2 (by decide)

/-- Claim C9.  Every hash `handleSearchClick` assigns is either the
neutral `#inbox` or `#search/` followed by the percent-encoding of the
record's query (the raw query is never concatenated: the encoding
output cannot even contain a space or an ampersand); the final
assignment is always the computed target; and when the current hash
already equals the target the handler performs exactly the two
assignments neutral-then-target, otherwise exactly one. -/
theorem claim_c9_navigation (q cur : List Char) :
    (∀ h ∈ handleSearchClick q cur,
        h = "#inbox".data ∨ h = "#search/".data ++ encodeURIComponent q) ∧
    ((handleSearchClick q cur).getLast?
        = some ("#search/".data ++ encodeURIComponent q)) ∧
    (cur = "#search/".data ++ encodeURIComponent q →
        handleSearchClick q cur
          = ["#inbox".data, "#search/".data ++ encodeURIComponent q]) ∧
    (cur ≠ "#search/".data ++ encodeURIComponent q →
        handleSearchClick q cur = ["#search/".data ++ encodeURIComponent q]) ∧
    ' ' ∉ encodeURIComponent q ∧ '&' ∉ encodeURIComponent q := by
  have hunfold : handleSearchClick q cur
      = if cur = "#search/".data ++ encodeURIComponent q then
          ["#inbox".data, "#search/".data ++ encodeURIComponent q]
        else ["#search/".data ++ encodeURIComponent q] := rfl
  by_cases hc : cur = "#search/".data ++ encodeURIComponent q
  · rw [hunfold, if_pos hc]
    refine ⟨?_, rfl, fun _ => rfl, fun hne => absurd hc hne,
      space_not_mem_encode q, amp_not_mem_encode q⟩
    intro h hm
    simp only [List.mem_cons, List.not_mem_nil, or_false] at hm
    rcases hm with rfl | rfl
    · exact Or.inl rfl
    · exact Or.inr rfl
  · rw [hunfold, if_neg hc]
    refine ⟨?_, rfl, fun heq => absurd heq hc, fun _ => rfl,
      space_not_mem_encode q, amp_not_mem_encode q⟩
    intro h hm
    simp only [List.mem_singleton] at hm
    exact Or.inr hm

/-- Claim C9, witness: a query with a space and an ampersand navigates
to the fully percent-encoded target, and a repeated click produces the
two-step neutral-then-target sequence. -/
theorem claim_c9_witness :
    handleSearchClick "a &b".data ("#search/a%20%26b".data)
      = ["#inbox".data, "#search/".data ++ encodeURIComponent "a &b".data] :=
  (claim_c9_navigation "a &b".data ("#search/a%20%26b".data)).2.2.1 (by decide)

/-- Claim C10.  The built-in default collection has 8 records, passes
`validateSearchesArray`, and is a fixed point of
`sanitizeSearchesArray`. -/
theorem claim_c10_defaults :
    DEFAULT_SEARCHES.length = 8 ∧
    validateSearchesArray defaultSearchesJS = true ∧
    sanitizeSearchesArray defaultSearchesJS = some defaultSearchesJS :=
  ⟨default_searches_length, default_searches_valid, sanitize_defaults⟩

end WizMail
